import Mathlib

/-!
Verification of the commit-message synthesis engine of `git-commit-message`
(`src/git-commit-message.js` and the extended variant embedded in
`src/test-example.test.js`).

The JavaScript functions are shallowly embedded as executable Lean
definitions over `String`/`List Char`.  Regular-expression matching is
embedded through a small backtracking engine (`RE`, `matchCont`) that
mirrors JavaScript leftmost / alternation-order / greedy semantics for the
specific pattern shapes used by the program (all quantifiers in the source
patterns range over single-character classes, plus one optional group).
Character-level operations (`toLowerCase`, `toUpperCase`, whitespace) are
modelled on the ASCII fragment, which is the fragment the program's own
string constants exercise.
-/

/-! ## Basic string helpers -/

/-- JavaScript whitespace class `\s` / `trim`, restricted to its ASCII members. -/
def isJsWs (c : Char) : Bool :=
  c = ' ' || c = '\t' || c = '\n' || c = '\r' || c = '\x0b' || c = '\x0c'

/-- `String.prototype.trim`: drop leading and trailing whitespace. -/
def jsTrim (l : List Char) : List Char :=
  ((l.dropWhile isJsWs).reverse.dropWhile isJsWs).reverse

/-- Is `sub` a contiguous infix of `l`?  (JavaScript `String.prototype.includes`.) -/
def containsSub (sub : List Char) : List Char → Bool
  | [] => sub.isEmpty
  | c :: rest => sub.isPrefixOf (c :: rest) || containsSub sub rest

/-- `haystack.includes(needle)` on strings. -/
def includesStr (haystack needle : String) : Bool :=
  containsSub needle.data haystack.data

/-- Lower-case a string character by character (ASCII model of
`String.prototype.toLowerCase`). -/
def jsToLower (s : String) : String :=
  ⟨s.data.map Char.toLower⟩

/-- `s.startsWith(p)`. -/
def startsWithStr (s p : String) : Bool :=
  p.data.isPrefixOf s.data

/-- `s.substring(0, n)`. -/
def strTake (s : String) (n : Nat) : String :=
  ⟨s.data.take n⟩

/-! ## Node `path` helpers

`categorizeFiles` and `analyzeCodeChanges` call Node's `path.extname` and
`path.basename` (POSIX).  These are embedded below following Node's
scanning algorithm: the component examined is the part of the path after
the last separator once trailing separators are ignored; the extension is
the last-dot suffix of that component, empty when the component has no
dot, only a leading dot, or is exactly `..`. -/

/-- The final path component, ignoring trailing `/` separators
(Node `path.posix.basename`). -/
def lastComponent (l : List Char) : List Char :=
  (((l.reverse.dropWhile (fun c => c = '/')).takeWhile (fun c => c ≠ '/'))).reverse

/-- Extension of a single path component (helper for `extname`). -/
def extnameOfComp (comp : List Char) : List Char :=
  let afterDot := (comp.reverse.takeWhile (fun c => c ≠ '.')).reverse
  if afterDot.length = comp.length then []            -- no dot in the component
  else if afterDot.length + 1 = comp.length then []   -- the last dot is the leading character
  else if comp = ['.', '.'] then []                   -- Node special-cases ".."
  else '.' :: afterDot

/-- Node `path.posix.extname`. -/
def extname (file : String) : String :=
  ⟨extnameOfComp (lastComponent file.data)⟩

/-- Node `path.posix.basename`. -/
def basename (file : String) : String :=
  ⟨lastComponent file.data⟩

/-! ## FileCategorizer (`categorizeFiles`) -/

/-- The seven category buckets of `categorizeFiles`. -/
inductive FileCat where
  | code | config | docs | tests | styles | scripts | other
deriving DecidableEq, Repr

/-- The per-file `if`/`else if` chain of `categorizeFiles`
(src/git-commit-message.js:48-82): first matching branch wins. -/
def fileCategory (file : String) : FileCat :=
  let ext := jsToLower (extname file)
  let bname := jsToLower (basename file)
  if [".js", ".jsx", ".ts", ".tsx", ".py", ".java", ".cpp", ".c", ".cs", ".php", ".rb", ".go", ".rs"].contains ext then
    .code
  else if [".json", ".yml", ".yaml", ".toml", ".ini", ".conf", ".env", ".lock", ".md"].contains ext
      || includesStr bname "package" || includesStr bname "config" || includesStr bname ".git" then
    .config
  else if [".md", ".txt", ".rst", ".adoc"].contains ext
      || includesStr bname "readme" || includesStr bname "doc" || includesStr bname "changelog" then
    .docs
  else if includesStr bname "test" || includesStr bname "spec" || ext = ".test.js" || ext = ".spec.js" then
    .tests
  else if [".css", ".scss", ".sass", ".less", ".styl", ".vue", ".svelte"].contains ext then
    .styles
  else if [".sh", ".bash", ".zsh", ".fish", ".py", ".pl"].contains ext then
    .scripts
  else
    .other

/-- Result record of `categorizeFiles`. -/
structure Categories where
  code : List String
  config : List String
  docs : List String
  tests : List String
  styles : List String
  scripts : List String
  other : List String
deriving DecidableEq, Repr

/-- `categorizeFiles` (src/git-commit-message.js:37-85).  The JavaScript
`forEach`/`push` loop appends each file, in input order, to the single
bucket selected by its category; that is exactly a filter of the input by
the per-file category. -/
def categorizeFiles (files : List String) : Categories where
  code := files.filter (fun f => decide (fileCategory f = .code))
  config := files.filter (fun f => decide (fileCategory f = .config))
  docs := files.filter (fun f => decide (fileCategory f = .docs))
  tests := files.filter (fun f => decide (fileCategory f = .tests))
  styles := files.filter (fun f => decide (fileCategory f = .styles))
  scripts := files.filter (fun f => decide (fileCategory f = .scripts))
  other := files.filter (fun f => decide (fileCategory f = .other))

/-- Select a bucket of a `Categories` record by category tag. -/
def Categories.bucket (cs : Categories) : FileCat → List String
  | .code => cs.code
  | .config => cs.config
  | .docs => cs.docs
  | .tests => cs.tests
  | .styles => cs.styles
  | .scripts => cs.scripts
  | .other => cs.other

/-- All seven buckets concatenated in declaration order. -/
def Categories.allFiles (cs : Categories) : List String :=
  cs.code ++ cs.config ++ cs.docs ++ cs.tests ++ cs.styles ++ cs.scripts ++ cs.other

/-! ## A small regex engine

JavaScript regular expressions in the source use only: literal runs,
single-character classes, concatenation, alternation, greedy `*`/`+` over
a single-character class, and one greedy optional group.  `matchCont`
implements the standard backtracking semantics (alternatives tried left to
right, quantifiers greedy with give-back) via an explicit continuation; a
global `match` scan tries successive start positions left to right, which
is exactly the JavaScript leftmost rule. -/

/-- Regex syntax actually used by the source patterns. -/
inductive RE where
  /-- a single character matching the class `p` -/
  | cls (p : Char → Bool)
  /-- a literal string -/
  | str (s : String)
  | seq (a b : RE)
  | alt (a b : RE)
  /-- greedy `(a)?` -/
  | opt (a : RE)
  /-- greedy `p*` over a single-character class -/
  | star (p : Char → Bool)
  /-- greedy `p+` over a single-character class -/
  | plus (p : Char → Bool)

/-- Suffixes reachable by consuming `0..k` leading characters of the
`p`-run of `l`, longest consumption first (greedy order). -/
def starChoices (p : Char → Bool) (l : List Char) : List (List Char) :=
  ((List.range ((l.takeWhile p).length + 1)).reverse).map (fun i => l.drop i)

/-- Feed candidate continuation points to `k`, first success wins. -/
def firstSome (k : List Char → Option (List Char)) : List (List Char) → Option (List Char)
  | [] => none
  | x :: xs =>
    match k x with
    | some r => some r
    | none => firstSome k xs

/-- Backtracking matcher: try to match `re` at the head of `l`, then run
continuation `k` on the remainder; returns the first success in
JavaScript backtracking order. -/
def matchCont : RE → List Char → (List Char → Option (List Char)) → Option (List Char)
  | .cls p, l, k =>
    match l with
    | [] => none
    | c :: r => if p c then k r else none
  | .str s, l, k => if s.data.isPrefixOf l then k (l.drop s.data.length) else none
  | .seq a b, l, k => matchCont a l (fun l1 => matchCont b l1 k)
  | .alt a b, l, k =>
    match matchCont a l k with
    | some r => some r
    | none => matchCont b l k
  | .opt a, l, k =>
    match matchCont a l k with
    | some r => some r
    | none => k l
  | .star p, l, k => firstSome k (starChoices p l)
  | .plus p, l, k =>
    match l with
    | [] => none
    | c :: r => if p c then firstSome k (starChoices p r) else none

/-- Match `re` anchored at the start of `l`; returns the remainder after
the (backtracking-first) match. -/
def matchRem (re : RE) (l : List Char) : Option (List Char) :=
  matchCont re l (fun rest => some rest)

/-- `re.test(s)`: does the regex match starting at some position? -/
def reTestL (re : RE) : List Char → Bool
  | [] => (matchRem re []).isSome
  | l@(_ :: r) => (matchRem re l).isSome || reTestL re r

/-- `re.test(s)` on a string. -/
def reTest (re : RE) (s : String) : Bool :=
  reTestL re s.data

/-- Matched substrings of `s.match(re)` with the `g` flag, scanning left
to right and resuming after each match (an empty match advances one
position, as in JavaScript).  `fuel` bounds the scan; it is instantiated
with the string length. -/
def gmatchesAux (re : RE) : Nat → List Char → List String
  | 0, _ => []
  | _ + 1, [] => []
  | fuel + 1, l =>
    match matchRem re l with
    | some rest =>
      let n := l.length - rest.length
      if n = 0 then gmatchesAux re fuel (l.drop 1)
      else (⟨l.take n⟩ : String) :: gmatchesAux re fuel (l.drop n)
    | none => gmatchesAux re fuel (l.drop 1)

/-- `s.match(re)` with the `g` flag (list of matched substrings; `[]` for
JavaScript's `null`). -/
def gmatches (re : RE) (s : String) : List String :=
  gmatchesAux re (s.data.length + 1) s.data

/-! Character classes appearing in the source patterns. -/

/-- `.` — any character except a line terminator. -/
def isDotCls (c : Char) : Bool :=
  c ≠ '\n' && c ≠ '\r'

/-- `\w`. -/
def isWordCls (c : Char) : Bool :=
  c.isAlphanum || c = '_'

/-- `[-+]`. -/
def isPm (c : Char) : Bool :=
  c = '-' || c = '+'

/-- `["']`. -/
def isQuoteChar (c : Char) : Bool :=
  c = '"' || c = '\''

/-- `[^'"]`. -/
def isNotQuote (c : Char) : Bool :=
  !(isQuoteChar c)

/-- `\+.*lit` — a `+` followed by non-terminator filler and the literal. -/
def plusDotStar (lit : String) : RE :=
  .seq (.str "+") (.seq (.star isDotCls) (.str lit))

/-- `-.*lit`. -/
def minusDotStar (lit : String) : RE :=
  .seq (.str "-") (.seq (.star isDotCls) (.str lit))

/-! ## DiffPatternAnalyzer catalogue (`analyzeCodeChanges`, patterns)

Each entry mirrors one regex literal of the `patterns` array in
src/test-example.test.js:311-329.  JavaScript alternation has the lowest
precedence, so e.g. `\+.*TODO|FIXME|HACK` is the three-way alternation
`(\+.*TODO) | (FIXME) | (HACK)`. -/

/-- A `{ pattern, type, action }` catalogue entry. -/
structure PatternSig where
  pattern : RE
  type : String
  action : String

/-- A `{ type, action }` pair pushed into `analysis.patterns`. -/
structure PatternMatch where
  type : String
  action : String
deriving DecidableEq, Repr

/-- `\s`. -/
def isWsCls (c : Char) : Bool := isJsWs c

/-- `export\s+(?:default\s+)?(?:class|function|const|var|let)` (tail of
catalogue entry 3). -/
def exportTailRE : RE :=
  .seq (.str "export")
    (.seq (.plus isWsCls)
      (.seq (.opt (.seq (.str "default") (.plus isWsCls)))
        (.alt (.str "class")
          (.alt (.str "function") (.alt (.str "const") (.alt (.str "var") (.str "let")))))))

/-- The fixed, ordered signature catalogue. -/
def patternCatalogue : List PatternSig :=
  [ { pattern := .alt (plusDotStar "console.log") (.alt (.str "console.debug") (.str "console.info")),
      type := "debugging", action := "Add debug logging" },
    { pattern := .alt (plusDotStar "TODO") (.alt (.str "FIXME") (.str "HACK")),
      type := "todos", action := "Add TODO comments" },
    { pattern := .seq (.str "+") (.seq (.star isDotCls) exportTailRE),
      type := "exports", action := "Add exports" },
    { pattern := .alt (minusDotStar "console.log") (.alt (.str "console.debug") (.str "console.info")),
      type := "debugging", action := "Remove debug logging" },
    { pattern := .alt (plusDotStar "eslint") (.alt (.str "prettier") (.str "stylelint")),
      type := "linting", action := "Add linting rules" },
    { pattern := .alt (plusDotStar "test")
        (.alt (.str "spec") (.alt (.str "describe") (.alt (.str "it") (.str "expect")))),
      type := "tests", action := "Add test cases" },
    { pattern := .alt (minusDotStar "test")
        (.alt (.str "spec") (.alt (.str "describe") (.alt (.str "it") (.str "expect")))),
      type := "tests", action := "Remove test cases" },
    { pattern := .alt (plusDotStar "catch")
        (.alt (.str "try")
          (.seq (.str "throw") (.seq (.plus isWsCls) (.seq (.str "new") (.seq (.plus isWsCls) (.str "Error")))))),
      type := "error-handling", action := "Add error handling" },
    { pattern := .alt (plusDotStar "async")
        (.alt (.str "await") (.alt (.str "Promise") (.alt (.str ".then(") (.str ".catch(")))),
      type := "async", action := "Add async functionality" },
    { pattern := .alt (plusDotStar "fetch")
        (.alt (.str "axios") (.alt (.str "XMLHttpRequest") (.str "http."))),
      type := "api", action := "Add API calls" },
    { pattern := .alt (plusDotStar "useState")
        (.alt (.str "useEffect") (.alt (.str "useContext") (.str "useReducer"))),
      type := "react-hooks", action := "Add React hooks" },
    { pattern := .alt (plusDotStar "Component")
        (.alt (.seq (.str "extends") (.seq (.star isDotCls) (.str "Component"))) (.str "React.Component")),
      type := "react-components", action := "Add React components" },
    { pattern := .alt (plusDotStar "router") (.alt (.str "route") (.str "/api/")),
      type := "routing", action := "Add routing" },
    { pattern := .alt (plusDotStar "mongoose")
        (.alt (.str "sequelize") (.alt (.str "prisma") (.str "sql"))),
      type := "database", action := "Add database operations" },
    { pattern := .alt (plusDotStar "auth")
        (.alt (.str "jwt") (.alt (.str "bcrypt") (.str "passport"))),
      type := "authentication", action := "Add authentication" },
    { pattern := .alt (plusDotStar "validation")
        (.alt (.str "validate") (.alt (.str "joi") (.str "yup"))),
      type := "validation", action := "Add validation" } ]

/-- The `patterns.forEach` loop of src/test-example.test.js:331-337: test
each signature against the whole diff in catalogue order; push its
`{ type, action }` unless an entry with the same `type` is already
present. -/
def collectPatterns (sigs : List PatternSig) (diff : String) (acc : List PatternMatch) : List PatternMatch :=
  match sigs with
  | [] => acc
  | sig :: rest =>
    if reTest sig.pattern diff && !(acc.any (fun p => p.type == sig.type)) then
      collectPatterns rest diff (acc ++ [{ type := sig.type, action := sig.action }])
    else
      collectPatterns rest diff acc

/-- Pattern-match list produced by `analyzeCodeChanges` for a diff. -/
def detectPatterns (diff : String) : List PatternMatch :=
  collectPatterns patternCatalogue diff []

/-! ## Evidence extraction (`analyzeCodeChanges`) -/

/-- The function/class declaration regex of src/test-example.test.js:262:
`[-+].*function\s+(\w+)\s*\(
 |[-+].*const\s+(\w+)\s*=\s*(?:\([^)]*\)\s*=>|async\s+\([^)]*\)\s*=>)
 |[-+].*class\s+(\w+)
 |[-+].*def\s+(\w+)\s*\(`  (capture groups are re-extracted afterwards,
so only the matched substring matters here). -/
def funcRE : RE :=
  .alt (.seq (.cls isPm) (.seq (.star isDotCls)
      (.seq (.str "function") (.seq (.plus isWsCls)
        (.seq (.plus isWordCls) (.seq (.star isWsCls) (.str "(")))))))
  (.alt (.seq (.cls isPm) (.seq (.star isDotCls)
      (.seq (.str "const") (.seq (.plus isWsCls)
        (.seq (.plus isWordCls) (.seq (.star isWsCls) (.seq (.str "=") (.seq (.star isWsCls)
          (.alt (.seq (.str "(") (.seq (.star (fun c => c ≠ ')')) (.seq (.str ")") (.seq (.star isWsCls) (.str "=>")))))
            (.seq (.str "async") (.seq (.plus isWsCls) (.seq (.str "(")
              (.seq (.star (fun c => c ≠ ')')) (.seq (.str ")") (.seq (.star isWsCls) (.str "=>"))))))))))))))))
  (.alt (.seq (.cls isPm) (.seq (.star isDotCls)
      (.seq (.str "class") (.seq (.plus isWsCls) (.plus isWordCls)))))
    (.seq (.cls isPm) (.seq (.star isDotCls)
      (.seq (.str "def") (.seq (.plus isWsCls)
        (.seq (.plus isWordCls) (.seq (.star isWsCls) (.str "(")))))))))

/-- The import regex of src/test-example.test.js:275:
`[-+].*(?:import|require|from)\s+['"][^'"]+['"]
 |[-+].*import\s+.*from\s+['"][^'"]+['"]`. -/
def importRE : RE :=
  .alt (.seq (.cls isPm) (.seq (.star isDotCls)
      (.seq (.alt (.str "import") (.alt (.str "require") (.str "from")))
        (.seq (.plus isWsCls) (.seq (.cls isQuoteChar) (.seq (.plus isNotQuote) (.cls isQuoteChar)))))))
    (.seq (.cls isPm) (.seq (.star isDotCls)
      (.seq (.str "import") (.seq (.plus isWsCls) (.seq (.star isDotCls)
        (.seq (.str "from") (.seq (.plus isWsCls)
          (.seq (.cls isQuoteChar) (.seq (.plus isNotQuote) (.cls isQuoteChar))))))))))

/-- The test-assertion regex of src/test-example.test.js:287:
`\+.*(?:test|it|describe|expect)\s*\(`. -/
def testAssertRE : RE :=
  .seq (.str "+") (.seq (.star isDotCls)
    (.seq (.alt (.str "test") (.alt (.str "it") (.alt (.str "describe") (.str "expect"))))
      (.seq (.star isWsCls) (.str "("))))

/-- The configuration regex of src/test-example.test.js:295:
`\+.*"[^"]+"\s*:\s*[^,\x7d]+` (the last class excludes a comma and a
closing curly brace). -/
def configKeyRE : RE :=
  .seq (.str "+") (.seq (.star isDotCls)
    (.seq (.str "\"") (.seq (.plus (fun c => c ≠ '"')) (.seq (.str "\"")
      (.seq (.star isWsCls) (.seq (.str ":") (.seq (.star isWsCls)
        (.plus (fun c => c ≠ ',' && c ≠ '}')))))))))

/-- The TypeScript type regex of src/test-example.test.js:303:
`\+.*(?:interface|type|enum)\s+\w+`. -/
def typeDeclRE : RE :=
  .seq (.str "+") (.seq (.star isDotCls)
    (.seq (.alt (.str "interface") (.alt (.str "type") (.str "enum")))
      (.seq (.plus isWsCls) (.plus isWordCls))))

/-- `m.replace(/^\+\s*/, "")`: drop one leading `+` and the whitespace run
after it. -/
def stripPlusWs (m : String) : String :=
  match m.data with
  | '+' :: rest => ⟨rest.dropWhile isJsWs⟩
  | _ => m

/-- Try one keyword alternative of the inner extraction regex
`(?:function|const|class|def)\s+(\w+)`: keyword, then one or more
whitespace characters, then the captured word run. -/
def tryKwIdent (kw : String) (l : List Char) : Option String :=
  if kw.data.isPrefixOf l then
    let rest := (l.drop kw.data.length)
    if (rest.takeWhile isJsWs).length > 0 then
      let afterWs := rest.dropWhile isJsWs
      let w := afterWs.takeWhile isWordCls
      if w.length > 0 then some ⟨w⟩ else none
    else none
  else none

/-- The inner extraction `match.match(/(?:function|const|class|def)\s+(\w+)/)`
of src/test-example.test.js:265: leftmost position first, alternatives in
declaration order, returning capture group 1. -/
def extractIdent : List Char → Option String
  | [] => none
  | l@(_ :: r) =>
    match tryKwIdent "function" l with
    | some w => some w
    | none =>
      match tryKwIdent "const" l with
      | some w => some w
      | none =>
        match tryKwIdent "class" l with
        | some w => some w
        | none =>
          match tryKwIdent "def" l with
          | some w => some w
          | none => extractIdent r

/-- Evidence record built by `analyzeCodeChanges`
(src/test-example.test.js:245-253). -/
structure CodeAnalysis where
  patterns : List PatternMatch
  functions : List String
  imports : List String
  tests : List String
  configs : List String
  types : List String
  summary : String
deriving DecidableEq, Repr

/-- One step of the functions loop (src/test-example.test.js:264-269):
extract the identifier of a matched declaration and push it unless
already present. -/
def pushFunction (fns : List String) (m : String) : List String :=
  match extractIdent m.data with
  | some id => if fns.contains id then fns else fns ++ [id]
  | none => fns

/-- The per-file body of the `files.forEach` loop of
src/test-example.test.js:256-308 is decomposed below into its five
guarded pushes, applied in source order; each evidence kind rescans the
whole diff whenever the file's extension/basename qualifies.  This is the
function-declaration guard and push (lines 261-271). -/
def stepFunctions (diff : String) (ext : String) (a : CodeAnalysis) : CodeAnalysis :=
  if [".js", ".jsx", ".ts", ".tsx", ".py", ".java", ".cpp", ".c"].contains ext then
    { a with functions := (gmatches funcRE diff).foldl pushFunction a.functions }
  else a

/-- The import guard and push of src/test-example.test.js:274-283. -/
def stepImports (diff : String) (ext : String) (a : CodeAnalysis) : CodeAnalysis :=
  if [".js", ".jsx", ".ts", ".tsx", ".py"].contains ext then
    { a with imports := a.imports ++
        ((gmatches importRE diff).filter (fun m => startsWithStr m "+")).map stripPlusWs }
  else a

/-- The test-pattern guard and push of src/test-example.test.js:286-291. -/
def stepTests (diff : String) (bname : String) (a : CodeAnalysis) : CodeAnalysis :=
  if includesStr bname "test" || includesStr bname "spec" then
    { a with tests := a.tests ++ (gmatches testAssertRE diff).map stripPlusWs }
  else a

/-- The configuration guard and push of src/test-example.test.js:294-299. -/
def stepConfigs (diff : String) (ext bname : String) (a : CodeAnalysis) : CodeAnalysis :=
  if [".json", ".yml", ".yaml", ".toml", ".env"].contains ext || includesStr bname "config" then
    { a with configs := a.configs ++
        (gmatches configKeyRE diff).map (fun m => strTake (stripPlusWs m) 50) }
  else a

/-- The TypeScript type guard and push of src/test-example.test.js:302-307. -/
def stepTypes (diff : String) (ext : String) (a : CodeAnalysis) : CodeAnalysis :=
  if [".ts", ".tsx"].contains ext then
    { a with types := a.types ++ (gmatches typeDeclRE diff).map stripPlusWs }
  else a

/-- The whole per-file body: the five guarded pushes applied in source
order. -/
def analyzeFileStep (diff : String) (a : CodeAnalysis) (file : String) : CodeAnalysis :=
  let ext := jsToLower (extname file)
  let bname := jsToLower (basename file)
  stepTypes diff ext
    (stepConfigs diff ext bname
      (stepTests diff bname
        (stepImports diff ext
          (stepFunctions diff ext a))))

/-- Pluralizing count clause `"N kind" / "N kinds"` used by the summary
and by `generateCommitMessage`. -/
def countClause (n : Nat) (label : String) : String :=
  toString n ++ " " ++ label ++ (if n > 1 then "s" else "")

/-- The summary assembly of src/test-example.test.js:340-357. -/
def analysisSummary (a : CodeAnalysis) : String :=
  let parts : List String :=
    (if a.functions.length > 0 then [countClause a.functions.length "function"] else [])
    ++ (if a.imports.length > 0 then [countClause a.imports.length "import"] else [])
    ++ (if a.tests.length > 0 then [countClause a.tests.length "test"] else [])
    ++ (if a.configs.length > 0 then ["configuration changes"] else [])
    ++ (if a.types.length > 0 then [countClause a.types.length "type"] else [])
  if parts.length > 0 then String.intercalate ", " parts else "code changes"

/-- `analyzeCodeChanges` (src/test-example.test.js:244-360). -/
def analyzeCodeChanges (files : List String) (diff : String) : CodeAnalysis :=
  let base : CodeAnalysis :=
    { patterns := [], functions := [], imports := [], tests := [], configs := [], types := [], summary := "" }
  let a := files.foldl (analyzeFileStep diff) base
  let a := { a with patterns := collectPatterns patternCatalogue diff a.patterns }
  { a with summary := analysisSummary a }

/-! ## MessageComposer (`generateCommitMessage`) -/

/-- The option fields read by the composer. -/
structure GenOptions where
  verbose : Bool
deriving DecidableEq, Repr

/-- JavaScript `String.prototype.replace` with a plain string search:
replace the first occurrence only (helper for list data). -/
def replaceFirstAux (pat repl : List Char) : List Char → List Char
  | [] => []
  | c :: rest =>
    if pat.isPrefixOf (c :: rest) then repl ++ (c :: rest).drop pat.length
    else c :: replaceFirstAux pat repl rest

/-- `s.replace(pat, repl)` for a string pattern (first occurrence only). -/
def jsReplaceFirst (s pat repl : String) : String :=
  ⟨replaceFirstAux pat.data repl.data s.data⟩

/-- The `addCategoryMessage` helper of src/test-example.test.js:155-167,
returning the zero or one clauses it pushes.  The plural branch uses
`verb count categoryName` and drops the adjective. -/
def addCategoryMessage (options : GenOptions) (category : List String)
    (categoryName verb adjective : String) : List String :=
  if category.length = 0 then []
  else
    let count := category.length
    let fileList := if options.verbose then " (" ++ String.intercalate ", " category ++ ")" else ""
    let adj := if adjective ≠ "" then adjective ++ " " else ""
    if count = 1 then [verb ++ " " ++ adj ++ categoryName ++ fileList]
    else [verb ++ " " ++ toString count ++ " " ++ categoryName ++ fileList]

/-- `generateCommitMessage` (src/test-example.test.js:117-184): if any
diff pattern matched, compose from the primary pattern's action plus
evidence counts; otherwise fall back to the per-category clauses, with
`"Update files"` when every bucket is empty. -/
def generateCommitMessage (categories : Categories) (codeAnalysis : CodeAnalysis)
    (options : GenOptions) : String :=
  match codeAnalysis.patterns with
  | primaryPattern :: _ =>
    let categoryParts : List String :=
      (if categories.code.length > 0 && codeAnalysis.functions.length > 0 then
        [countClause codeAnalysis.functions.length "function"] else [])
      ++ (if categories.tests.length > 0 && codeAnalysis.tests.length > 0 then
        [countClause codeAnalysis.tests.length "test"] else [])
      ++ (if codeAnalysis.imports.length > 0 then ["new imports"] else [])
      ++ (if codeAnalysis.types.length > 0 then
        [countClause codeAnalysis.types.length "type"] else [])
    let action :=
      if startsWithStr primaryPattern.action "Add " && categoryParts.length > 0 then
        jsReplaceFirst primaryPattern.action "Add " ""
      else primaryPattern.action
    if categoryParts.length > 0 then
      action ++ " with " ++ String.intercalate ", " categoryParts
    else action
  | [] =>
    let messages : List String :=
      addCategoryMessage options categories.code "code file" "Update" "source"
      ++ addCategoryMessage options categories.config "configuration" "Update" ""
      ++ addCategoryMessage options categories.docs "documentation" "Update" ""
      ++ addCategoryMessage options categories.tests "test" "Update" ""
      ++ addCategoryMessage options categories.styles "stylesheet" "Update" ""
      ++ addCategoryMessage options categories.scripts "script" "Update" ""
      ++ addCategoryMessage options categories.other "file" "Update" ""
    if messages.length = 0 then "Update files"
    else String.intercalate ", " messages

/-! ## Final capitalization (`main`)

`commitMessage = commitMessage.charAt(0).toUpperCase() + commitMessage.slice(1)`
(src/git-commit-message.js:462, src/test-example.test.js:672). -/

/-- Upper-case the first character, leave the rest untouched. -/
def capitalizeFirst (s : String) : String :=
  match s.data with
  | [] => ""
  | c :: cs => ⟨Char.toUpper c :: cs⟩

/-! ## RemoteGenerator response sanitization
(`generateCommitMessageWithOllama`, src/test-example.test.js:486-502; the
`generateCommitMessageWithLlama` variant in src/git-commit-message.js:276-290
is the same chain without the boilerplate/artifact strips). -/

/-- `.replace(/^["']|["']$/g, "")`: the anchors make each alternative fire
at most once, so exactly one leading and one trailing quote character are
removed when present. -/
def stripQuotesL (l : List Char) : List Char :=
  let l1 := match l with
    | [] => []
    | c :: rest => if isQuoteChar c then rest else c :: rest
  match l1.getLast? with
  | some c => if isQuoteChar c then l1.dropLast else l1
  | none => l1

/-- `.replace(/\.$/, "")`: remove one trailing period when present. -/
def stripTrailingPeriod (l : List Char) : List Char :=
  match l.getLast? with
  | some c => if c = '.' then l.dropLast else l
  | none => l

/-- `.replace(/\n+/g, " ")` helper: `prevNL` records whether the previous
character belonged to a newline run already replaced. -/
def collapseNLAux : Bool → List Char → List Char
  | _, [] => []
  | prevNL, c :: rest =>
    if c = '\n' then
      if prevNL then collapseNLAux true rest
      else ' ' :: collapseNLAux true rest
    else c :: collapseNLAux false rest

/-- `.replace(/\n+/g, " ")`: each maximal newline run becomes one space. -/
def collapseNewlines (l : List Char) : List Char :=
  collapseNLAux false l

/-- Case-insensitive prefix test (the `i` flag on an ASCII pattern). -/
def ciIsPrefixOf (p : List Char) (l : List Char) : Bool :=
  (p.map Char.toLower).isPrefixOf (l.map Char.toLower)

/-- The boilerplate prefixes recognized by
`.replace(/^(?:Sure! Here is(?: a potential)? commit message for the changes
you described:|Here's a commit message:|Git commit message:)/i, "")`,
in backtracking order (the greedy optional group is tried filled first). -/
def aiPrefixes : List String :=
  [ "Sure! Here is a potential commit message for the changes you described:",
    "Sure! Here is commit message for the changes you described:",
    "Here\x27s a commit message:",
    "Git commit message:" ]

/-- Strip the first matching boilerplate prefix, case-insensitively. -/
def stripAiPrefixes (l : List Char) : List Char :=
  match aiPrefixes.find? (fun p => ciIsPrefixOf p.data l) with
  | some p => l.drop p.data.length
  | none => l

/-- `.replace(/\s+-\s+[Ll]og$/, "")`: drop a trailing
`whitespace - whitespace log/Log` artifact, working on the reversed list. -/
def stripLogArtifact (l : List Char) : List Char :=
  match l.reverse with
  | 'g' :: 'o' :: c :: rest =>
    if c = 'L' || c = 'l' then
      if (rest.takeWhile isJsWs).length > 0 then
        match rest.dropWhile isJsWs with
        | '-' :: rest2 =>
          if (rest2.takeWhile isJsWs).length > 0 then (rest2.dropWhile isJsWs).reverse
          else l
        | _ => l
      else l
    else l
  | _ => l

/-- The full cleaning chain applied to `response.response`
(src/test-example.test.js:486-495): trim, strip quotes, strip one trailing
period, collapse newlines, strip boilerplate prefixes, strip the trailing
log artifact, trim again, and keep only the first line. -/
def cleanOllamaResponse (resp : String) : String :=
  let commitMessage := jsTrim resp.data
  let s1 := stripQuotesL commitMessage
  let s2 := stripTrailingPeriod s1
  let s3 := collapseNewlines s2
  let s4 := stripAiPrefixes s3
  let s5 := stripLogArtifact s4
  let s6 := jsTrim s5
  ⟨s6.takeWhile (fun c => c ≠ '\n')⟩

/-- The acceptance gate of src/test-example.test.js:497-502: return the
cleaned message only when its length is strictly between 0 and 100. -/
def sanitizeOllamaResponse (resp : String) : Option String :=
  let cleanedMessage := cleanOllamaResponse resp
  if cleanedMessage.length > 0 && cleanedMessage.length < 100 then some cleanedMessage
  else none

/-! ## `getDetailedCommitMessage` shortstat parsing

`summary.match(/(\d+)\s+insertion\(+\),?\s*(\d+)\s+deletion\(-\)?/)`
(src/git-commit-message.js:135).  Note `insertion\(+\)` is the literal
`insertion` followed by ONE OR MORE `(` characters and then `)` — not the
text `insertion(+)` that git prints.  The matcher below tries each start
position left to right; at a position the quantified pieces are maximal
runs (no alternative needs give-back here because each following token
starts with a character excluded from the preceding class). -/

/-- Decimal value of a digit run (JavaScript `parseInt` on the capture). -/
def digitsToNat (l : List Char) : Nat :=
  l.foldl (fun n c => 10 * n + (c.toNat - 48)) 0

/-- Attempt the shortstat regex anchored at this position; returns the two
captured numbers on success. -/
def parseStatAt (l : List Char) : Option (Nat × Nat) :=
  let d1 := l.takeWhile Char.isDigit                       -- (\d+)
  if d1.length = 0 then none else
  let r1 := l.dropWhile Char.isDigit
  if (r1.takeWhile isJsWs).length = 0 then none else       -- \s+
  let r2 := r1.dropWhile isJsWs
  if ("insertion".data).isPrefixOf r2 then
    let r3 := r2.drop 9
    if (r3.takeWhile (fun c => c = '(')).length = 0 then none else  -- \(+
    match r3.dropWhile (fun c => c = '(') with
    | ')' :: r5 =>                                          -- \)
      let r6 := match r5 with | ',' :: t => t | _ => r5     -- ,?
      let r7 := r6.dropWhile isJsWs                         -- \s*
      let d2 := r7.takeWhile Char.isDigit                   -- (\d+)
      if d2.length = 0 then none else
      let r8 := r7.dropWhile Char.isDigit
      if (r8.takeWhile isJsWs).length = 0 then none else    -- \s+
      let r9 := r8.dropWhile isJsWs
      if ("deletion".data).isPrefixOf r9 then
        match r9.drop 8 with
        | '(' :: '-' :: _ => some (digitsToNat d1, digitsToNat d2)  -- \(-\)?
        | _ => none
      else none
    | _ => none
  else none

/-- `summary.match(re)` without flags: first matching position scanning
left to right, or `none`. -/
def parseShortstatL : List Char → Option (Nat × Nat)
  | [] => none
  | l@(_ :: r) =>
    match parseStatAt l with
    | some m => some m
    | none => parseShortstatL r

/-- `getDetailedCommitMessage` (src/git-commit-message.js:128-154) as a
function of the already-trimmed `--shortstat` summary string: parse the
additions/deletions (both 0 when the regex fails to match) and pick the
action verb. -/
def getDetailedCommitMessage (summary : String) : String :=
  let m := parseShortstatL summary.data
  let additions := match m with | some (a, _) => a | none => 0
  let deletions := match m with | some (_, d) => d | none => 0
  if additions > 0 && deletions = 0 then "Add"
  else if additions = 0 && deletions > 0 then "Remove"
  else if additions > deletions * 2 then "Enhance"
  else if deletions > additions * 2 then "Simplify"
  else "Update"

/-! # Theorems -/

/-- C2 (counterexample): on `["README.md", "CHANGELOG.md"]` the `docs`
bucket is empty — `.md` is in the config extension list, whose branch is
tested before the docs branch — and with verbose on and no pattern matches
the composed message is not `"Update documentation (README.md, CHANGELOG.md)"`,
refuting the claim at its own input. -/
theorem scenarioB_counterexample :
    (categorizeFiles ["README.md", "CHANGELOG.md"]).docs = [] ∧
    generateCommitMessage (categorizeFiles ["README.md", "CHANGELOG.md"])
        (analyzeCodeChanges ["README.md", "CHANGELOG.md"] "") { verbose := true }
      ≠ "Update documentation (README.md, CHANGELOG.md)" := by
  decide

/-- C2 (amended): both files are categorized as `config` (the `.md`
extension belongs to the config extension list, which is checked before
the docs branch), and with verbose enabled and no pattern matches the
composed message is exactly `"Update 2 configuration (README.md, CHANGELOG.md)"`. -/
theorem scenarioB_amended :
    (categorizeFiles ["README.md", "CHANGELOG.md"]).config = ["README.md", "CHANGELOG.md"] ∧
    (categorizeFiles ["README.md", "CHANGELOG.md"]).docs = [] ∧
    generateCommitMessage (categorizeFiles ["README.md", "CHANGELOG.md"])
        (analyzeCodeChanges ["README.md", "CHANGELOG.md"] "") { verbose := true }
      = "Update 2 configuration (README.md, CHANGELOG.md)" := by
  decide

/-- C5 (counterexample): on `["src/app.js", "src/utils.js", "styles/main.css"]`
with no pattern matches and verbose off, the composed message is not
`"Update 2 source code file, 1 stylesheet"` — the plural branch drops the
`source` adjective and a singleton bucket uses `"Update stylesheet"`. -/
theorem scenarioA_counterexample :
    generateCommitMessage (categorizeFiles ["src/app.js", "src/utils.js", "styles/main.css"])
        (analyzeCodeChanges ["src/app.js", "src/utils.js", "styles/main.css"] "") { verbose := false }
      ≠ "Update 2 source code file, 1 stylesheet" := by
  decide

/-- C5 (amended): categorization puts 2 files in `code` and 1 in `styles`,
and the composed message is exactly `"Update 2 code file, Update stylesheet"`
(the plural clause omits the adjective; the singleton clause repeats the verb). -/
theorem scenarioA_amended :
    (categorizeFiles ["src/app.js", "src/utils.js", "styles/main.css"]).code
        = ["src/app.js", "src/utils.js"] ∧
    (categorizeFiles ["src/app.js", "src/utils.js", "styles/main.css"]).styles
        = ["styles/main.css"] ∧
    generateCommitMessage (categorizeFiles ["src/app.js", "src/utils.js", "styles/main.css"])
        (analyzeCodeChanges ["src/app.js", "src/utils.js", "styles/main.css"] "") { verbose := false }
      = "Update 2 code file, Update stylesheet" := by
  decide

/-- C6: with an empty staged-file list and no pattern matches,
`generateCommitMessage` returns exactly `"Update files"`, for every
verbose setting. -/
theorem generateCommitMessage_empty_files (ca : CodeAnalysis) (opts : GenOptions)
    (h : ca.patterns = []) :
    generateCommitMessage (categorizeFiles []) ca opts = "Update files" := by
  unfold generateCommitMessage
  rw [h]
  simp [categorizeFiles, addCategoryMessage]

/-- C6 (witness): the empty-input scenario evaluated concretely, for both
verbose settings. -/
theorem generateCommitMessage_empty_files_witness :
    generateCommitMessage (categorizeFiles []) (analyzeCodeChanges [] "") { verbose := true }
        = "Update files" ∧
    generateCommitMessage (categorizeFiles []) (analyzeCodeChanges [] "") { verbose := false }
        = "Update files" :=
  ⟨generateCommitMessage_empty_files (analyzeCodeChanges [] "") { verbose := true } (by decide),
   generateCommitMessage_empty_files (analyzeCodeChanges [] "") { verbose := false } (by decide)⟩

/-- C10: the diff text `"with"` contains no `+` character (no added
lines) and no test code, yet `analyzeCodeChanges` reports the tests
pattern `"Add test cases"`: in `/\+.*test|spec|describe|it|expect/` the
added-line anchor binds only to the first alternative, and `"with"`
contains the bare alternative `it`. -/
theorem testsPattern_matches_plusless_diff :
    (¬ "with".data.contains '+') ∧
    (analyzeCodeChanges [] "with").patterns = [{ type := "tests", action := "Add test cases" }] := by
  decide

/-- `Char.ofNat` round-trips through `toNat` on valid (BMP-low) codepoints. -/
theorem char_toNat_ofNat_valid {n : Nat} (h : n < 55296) : (Char.ofNat n).toNat = n := by
  have hv : n.isValidChar := Or.inl h
  simp [Char.ofNat, hv, Char.ofNatAux, Char.toNat, UInt32.toNat]

/-- ASCII upper-casing is idempotent on every character. -/
theorem char_toUpper_idem (c : Char) : c.toUpper.toUpper = c.toUpper := by
  unfold Char.toUpper
  by_cases h : c.toNat ≥ 97 ∧ c.toNat ≤ 122
  · have h32 : c.toNat - 32 < 55296 := by omega
    simp [h, char_toNat_ofNat_valid h32]
    omega
  · simp [h]

/-- Upper-casing fixes characters that are already upper-case. -/
theorem char_toUpper_of_isUpper (c : Char) (h : c.isUpper) : c.toUpper = c := by
  simp [Char.isUpper] at h
  unfold Char.toUpper
  have hn : c.toNat ≤ 90 := by
    have := h.2
    simp [Char.toNat] at this ⊢
    exact this
  have : ¬(c.toNat ≥ 97 ∧ c.toNat ≤ 122) := by omega
  simp [this]

/-- C8: the final first-character capitalization step of `main` maps
`"update file"` to `"Update file"`, leaves any string whose first
character is already upper-case unchanged, and is idempotent on every
string. -/
theorem main_capitalize_spec :
    capitalizeFirst "update file" = "Update file" ∧
    (∀ (c : Char) (cs : List Char), c.isUpper → capitalizeFirst ⟨c :: cs⟩ = ⟨c :: cs⟩) ∧
    (∀ s : String, capitalizeFirst (capitalizeFirst s) = capitalizeFirst s) := by
  refine ⟨by decide, ?_, ?_⟩
  · intro c cs h
    simp [capitalizeFirst, char_toUpper_of_isUpper c h]
  · intro s
    cases hs : s.data with
    | nil => simp [capitalizeFirst, hs]
    | cons c cs => simp [capitalizeFirst, hs, char_toUpper_idem]

/-- C8 (witness): the already-capitalized clause applied to the concrete
string `"Update file"`. -/
theorem main_capitalize_spec_witness :
    capitalizeFirst ⟨'U' :: "pdate file".data⟩ = ⟨'U' :: "pdate file".data⟩ :=
  main_capitalize_spec.2.1 'U' "pdate file".data (by decide)

/-- C7: the response sanitization strips exactly one pair of surrounding
quote characters and exactly one trailing period when present (the inner
string is kept verbatim, even when it itself starts or ends with a quote
or period), and the cleaned text is returned iff its length is strictly
between 0 and 100, otherwise nothing is returned. -/
theorem ollama_sanitize_spec :
    (∀ x : String, stripQuotesL ('"' :: x.data ++ ['"']) = x.data) ∧
    (∀ x : String, stripQuotesL ('\'' :: x.data ++ ['\'']) = x.data) ∧
    (∀ x : String, stripTrailingPeriod (x.data ++ ['.']) = x.data) ∧
    (∀ s : String, sanitizeOllamaResponse s =
      if 0 < (cleanOllamaResponse s).length ∧ (cleanOllamaResponse s).length < 100 then
        some (cleanOllamaResponse s)
      else none) := by
  refine ⟨?_, ?_, ?_, ?_⟩
  · intro x
    simp [stripQuotesL, isQuoteChar, List.getLast?_concat, List.dropLast_concat]
  · intro x
    simp [stripQuotesL, isQuoteChar, List.getLast?_concat, List.dropLast_concat]
  · intro x
    simp [stripTrailingPeriod, List.getLast?_concat, List.dropLast_concat]
  · intro s
    unfold sanitizeOllamaResponse
    by_cases h : 0 < (cleanOllamaResponse s).length ∧ (cleanOllamaResponse s).length < 100
    · simp [h.1, h.2]
    · simp only [not_and, Nat.not_lt] at h
      by_cases h1 : 0 < (cleanOllamaResponse s).length
      · simp [h1, Nat.not_lt.mpr (h h1), h]
      · simp [Nat.le_zero.mp (Nat.not_lt.mp h1), h1]

/-- Each bucket of `categorizeFiles` is the filter of the input by the
per-file category. -/
theorem bucket_categorizeFiles (files : List String) (c : FileCat) :
    (categorizeFiles files).bucket c = files.filter (fun f => decide (fileCategory f = c)) := by
  cases c <;> rfl

/-- An element on which the predicate fails is never counted in a filter. -/
theorem count_filter_neg {p : String → Bool} {a : String} (l : List String) (h : p a = false) :
    (l.filter p).count a = 0 := by
  apply List.count_eq_zero.mpr
  intro hmem
  have hpa := (List.mem_filter.mp hmem).2
  rw [h] at hpa
  exact Bool.false_ne_true hpa

/-- C1: for every non-empty file list, `categorizeFiles` places each file
in exactly one of the seven buckets, and the seven buckets together are a
permutation of the input list (union = input, counting multiplicity). -/
theorem categorizeFiles_partition (files : List String) (_hne : files ≠ []) :
    (∀ f ∈ files, ∃! c : FileCat, f ∈ (categorizeFiles files).bucket c) ∧
    ((categorizeFiles files).allFiles).Perm files := by
  constructor
  · intro f hf
    refine ⟨fileCategory f, ?_, ?_⟩
    · show f ∈ (categorizeFiles files).bucket (fileCategory f)
      rw [bucket_categorizeFiles]
      simp [List.mem_filter, hf]
    · intro c hc
      rw [bucket_categorizeFiles] at hc
      have hpc := (List.mem_filter.mp hc).2
      simp only [decide_eq_true_eq] at hpc
      exact hpc.symm
  · apply List.perm_iff_count.mpr
    intro a
    unfold Categories.allFiles categorizeFiles
    simp only [List.count_append]
    rcases hc : fileCategory a with _ | _ | _ | _ | _ | _ | _ <;>
      simp [List.count_filter, count_filter_neg, hc]

/-- C1 (witness): the partition property evaluated on a concrete
non-empty list hitting two different buckets. -/
theorem categorizeFiles_partition_witness :
    (∀ f ∈ ["a.js", "README.md"], ∃! c : FileCat, f ∈ (categorizeFiles ["a.js", "README.md"]).bucket c) ∧
    ((categorizeFiles ["a.js", "README.md"]).allFiles).Perm ["a.js", "README.md"] :=
  categorizeFiles_partition ["a.js", "README.md"] (by decide)

/-- The guarded push of the functions loop preserves freedom from
duplicates (it checks membership before pushing). -/
theorem pushFunction_nodup {fns : List String} (h : fns.Nodup) (m : String) :
    (pushFunction fns m).Nodup := by
  unfold pushFunction
  cases extractIdent m.data with
  | none => exact h
  | some id =>
    by_cases hc : id ∈ fns
    · simp [hc, h]
    · simp only [List.contains, List.elem_eq_mem, hc, decide_False, Bool.false_eq_true, if_false]
      rw [List.nodup_append]
      refine ⟨h, List.nodup_singleton id, ?_⟩
      intro a ha hmem
      simp only [List.mem_singleton] at hmem
      subst hmem
      exact hc ha

/-- Folding the guarded push over any match list preserves `Nodup`. -/
theorem foldl_pushFunction_nodup (ms : List String) :
    ∀ {fns : List String}, fns.Nodup → (ms.foldl pushFunction fns).Nodup := by
  induction ms with
  | nil => intro fns h; exact h
  | cons m ms ih => intro fns h; exact ih (pushFunction_nodup h m)

/-- The import step never touches the functions collection. -/
theorem stepImports_functions (diff ext : String) (a : CodeAnalysis) :
    (stepImports diff ext a).functions = a.functions := by
  unfold stepImports; split <;> rfl

/-- The test step never touches the functions collection. -/
theorem stepTests_functions (diff bname : String) (a : CodeAnalysis) :
    (stepTests diff bname a).functions = a.functions := by
  unfold stepTests; split <;> rfl

/-- The config step never touches the functions collection. -/
theorem stepConfigs_functions (diff ext bname : String) (a : CodeAnalysis) :
    (stepConfigs diff ext bname a).functions = a.functions := by
  unfold stepConfigs; split <;> rfl

/-- The type step never touches the functions collection. -/
theorem stepTypes_functions (diff ext : String) (a : CodeAnalysis) :
    (stepTypes diff ext a).functions = a.functions := by
  unfold stepTypes; split <;> rfl

/-- The function step preserves `Nodup` of the functions collection. -/
theorem stepFunctions_nodup (diff ext : String) {a : CodeAnalysis}
    (h : a.functions.Nodup) : (stepFunctions diff ext a).functions.Nodup := by
  unfold stepFunctions
  split
  · exact foldl_pushFunction_nodup _ h
  · exact h

/-- One whole per-file step preserves `Nodup` of the functions collection. -/
theorem analyzeFileStep_functions_nodup (diff : String) {a : CodeAnalysis} (f : String)
    (h : a.functions.Nodup) : (analyzeFileStep diff a f).functions.Nodup := by
  unfold analyzeFileStep
  rw [stepTypes_functions, stepConfigs_functions, stepTests_functions, stepImports_functions]
  exact stepFunctions_nodup _ _ h

/-- The file fold preserves `Nodup` of the functions collection. -/
theorem foldl_analyzeFileStep_functions_nodup (diff : String) (files : List String) :
    ∀ {a : CodeAnalysis}, a.functions.Nodup →
      ((files.foldl (analyzeFileStep diff) a).functions).Nodup := by
  induction files with
  | nil => intro a h; exact h
  | cons f fs ih => intro a h; exact ih (analyzeFileStep_functions_nodup diff f h)

/-- C3 (counterexample): with two staged `.js` files the whole diff is
scanned once per file and import evidence is pushed without a membership
check, so the imports collection holds the same entry twice, refuting
"evidence collections never contain duplicate entries". -/
theorem analyzeCodeChanges_imports_duplicate :
    (analyzeCodeChanges ["a.js", "b.js"] "+import \"m\"").imports
        = ["import \"m\"", "import \"m\""] ∧
    ¬ (analyzeCodeChanges ["a.js", "b.js"] "+import \"m\"").imports.Nodup := by
  decide

/-- C3 (amended): only the functions collection is deduplicated (its push
is guarded by a membership test), and it is duplicate-free for every
input; the imports, tests, configs and types collections are appended
unconditionally and can contain duplicates when several staged files
qualify for the same evidence kind. -/
theorem analyzeCodeChanges_functions_nodup (files : List String) (diff : String) :
    (analyzeCodeChanges files diff).functions.Nodup := by
  unfold analyzeCodeChanges
  exact foldl_analyzeFileStep_functions_nodup diff files List.nodup_nil

/-- `collectPatterns` only ever appends, and what it appends is a
subsequence of the catalogue entries in declaration order. -/
theorem collectPatterns_eq_append (diff : String) (sigs : List PatternSig) :
    ∀ acc : List PatternMatch, ∃ t : List PatternMatch,
      collectPatterns sigs diff acc = acc ++ t ∧
      t.Sublist (sigs.map fun s => { type := s.type, action := s.action }) := by
  induction sigs with
  | nil => intro acc; exact ⟨[], by simp [collectPatterns]⟩
  | cons sig rest ih =>
    intro acc
    unfold collectPatterns
    by_cases hc : (reTest sig.pattern diff && !(acc.any (fun p => p.type == sig.type))) = true
    · obtain ⟨t, ht, hsub⟩ := ih (acc ++ [{ type := sig.type, action := sig.action }])
      refine ⟨{ type := sig.type, action := sig.action } :: t, ?_, ?_⟩
      · rw [if_pos hc, ht, List.append_assoc]
        rfl
      · simpa using hsub.cons₂ { type := sig.type, action := sig.action }
    · obtain ⟨t, ht, hsub⟩ := ih acc
      refine ⟨t, by rw [if_neg hc]; exact ht, ?_⟩
      simpa using hsub.cons _

/-- The `type`-dedup guard of `collectPatterns` keeps the kinds of the
accumulated matches pairwise distinct. -/
theorem collectPatterns_types_nodup (diff : String) (sigs : List PatternSig) :
    ∀ acc : List PatternMatch, (acc.map (fun p => p.type)).Nodup →
      ((collectPatterns sigs diff acc).map (fun p => p.type)).Nodup := by
  induction sigs with
  | nil => intro acc h; simpa [collectPatterns] using h
  | cons sig rest ih =>
    intro acc h
    unfold collectPatterns
    by_cases hc : (reTest sig.pattern diff && !(acc.any (fun p => p.type == sig.type))) = true
    · rw [if_pos hc]
      apply ih
      rw [List.map_append, List.nodup_append]
      refine ⟨h, by simp, ?_⟩
      intro x hx hmem
      simp only [List.map_cons, List.map_nil, List.mem_singleton] at hmem
      subst hmem
      have hany := ((Bool.and_eq_true _ _).mp hc).2
      simp only [Bool.not_eq_true', List.any_eq_false] at hany
      obtain ⟨p, hp, hpt⟩ := List.mem_map.mp hx
      exact hany p hp (by simp [hpt])
    · rw [if_neg hc]
      exact ih acc h

/-- C4: for every diff text the pattern-match list has at most one entry
per distinct kind, its order is a subsequence of the fixed catalogue
declaration order (never the diff occurrence order), and whenever the
first catalogue signature (debug logging added) matches — in particular
when the TODO signature also matches — the primary (head) pattern is the
debug-logging entry. -/
theorem detectPatterns_spec (diff : String) :
    ((detectPatterns diff).map (fun p => p.type)).Nodup ∧
    (detectPatterns diff).Sublist
      (patternCatalogue.map fun s => { type := s.type, action := s.action }) ∧
    (∀ sig1 sig2 rest, patternCatalogue = sig1 :: sig2 :: rest →
      reTest sig1.pattern diff → reTest sig2.pattern diff →
      (detectPatterns diff).head? = some { type := sig1.type, action := sig1.action }) := by
  refine ⟨?_, ?_, ?_⟩
  · exact collectPatterns_types_nodup diff patternCatalogue [] (by simp)
  · obtain ⟨t, ht, hsub⟩ := collectPatterns_eq_append diff patternCatalogue []
    unfold detectPatterns
    rw [ht]
    simpa using hsub
  · intro sig1 sig2 rest hcat h1 _h2
    unfold detectPatterns
    rw [hcat]
    unfold collectPatterns
    rw [if_pos (by simp [h1])]
    obtain ⟨t, ht, _⟩ := collectPatterns_eq_append diff (sig2 :: rest)
      ([] ++ [{ type := sig1.type, action := sig1.action }])
    rw [ht]
    rfl

/-- C4 (witness): on a diff where the TODO signature fires via `FIXME`
before `console.debug` appears in the text, the primary pattern is still
the debug-logging catalogue entry. -/
theorem detectPatterns_spec_witness :
    (detectPatterns "FIXME early console.debug").head?
      = some { type := "debugging", action := "Add debug logging" } :=
  (detectPatterns_spec "FIXME early console.debug").2.2
    { pattern := .alt (plusDotStar "console.log") (.alt (.str "console.debug") (.str "console.info")),
      type := "debugging", action := "Add debug logging" }
    { pattern := .alt (plusDotStar "TODO") (.alt (.str "FIXME") (.str "HACK")),
      type := "todos", action := "Add TODO comments" }
    _ rfl (by decide) (by decide)

/-- The shortstat regex cannot start matching at a non-digit character. -/
theorem parseStatAt_nondigit (c : Char) (hc : Char.isDigit c = false) (t : List Char) :
    parseStatAt (c :: t) = none := by
  unfold parseStatAt
  simp [List.takeWhile_cons, hc]

/-- One scan step of the unflagged `match`. -/
theorem parseShortstatL_cons_none (c : Char) (t : List Char)
    (hat : parseStatAt (c :: t) = none) (ht : parseShortstatL t = none) :
    parseShortstatL (c :: t) = none := by
  unfold parseShortstatL
  rw [hat]
  exact ht

/-- Scanning past a block of non-digit characters finds no match inside it. -/
theorem parseShortstatL_append_nondigits (m : List Char) (hm : ∀ c ∈ m, Char.isDigit c = false)
    (t : List Char) (ht : parseShortstatL t = none) : parseShortstatL (m ++ t) = none := by
  induction m with
  | nil => simpa using ht
  | cons c m ih =>
    have hc := hm c (List.mem_cons_self c m)
    have hm' : ∀ x ∈ m, Char.isDigit x = false := fun x hx => hm x (List.mem_cons_of_mem _ hx)
    rw [List.cons_append]
    exact parseShortstatL_cons_none _ _ (parseStatAt_nondigit c hc _) (ih hm')

/-- Scanning past a digit block: when the anchored attempt fails for every
digit suffix, no match starts inside the block. -/
theorem parseShortstatL_append_digits (d : List Char) (hd : ∀ c ∈ d, Char.isDigit c)
    (t : List Char)
    (hA : ∀ d' : List Char, (∀ c ∈ d', Char.isDigit c) → parseStatAt (d' ++ t) = none)
    (ht : parseShortstatL t = none) :
    parseShortstatL (d ++ t) = none := by
  induction d with
  | nil => simpa using ht
  | cons c d ih =>
    have hd' : ∀ x ∈ d, Char.isDigit x := fun x hx => hd x (List.mem_cons_of_mem _ hx)
    have hat := hA (c :: d) hd
    rw [List.cons_append] at hat ⊢
    exact parseShortstatL_cons_none _ _ hat (ih hd')

/-- The anchored attempt fails on git's `insertion` shape: after the
digits, the whitespace and the literal `insertion`, the regex demands one
or more `(` followed by `)`, but the text continues with `s(` (plural) or
`(+` (singular). -/
theorem parseStatAt_insertion_shape (d : List Char) (hd : ∀ c ∈ d, Char.isDigit c)
    (ptail rest : List Char) (hpt : ptail = [] ∨ ptail = ['s']) :
    parseStatAt (d ++ ' ' :: ("insertion".data ++ (ptail ++ '(' :: '+' :: rest))) = none := by
  unfold parseStatAt
  rw [List.takeWhile_append_of_pos hd, List.dropWhile_append_of_pos hd]
  have hsp : Char.isDigit ' ' = false := by decide
  simp only [List.takeWhile_cons, hsp, Bool.false_eq_true, if_false, List.append_nil,
    List.dropWhile_cons]
  split
  · rfl
  · have hws : isJsWs ' ' = true := by decide
    have hwi : isJsWs 'i' = false := by decide
    have hins : "insertion".data = ['i', 'n', 's', 'e', 'r', 't', 'i', 'o', 'n'] := rfl
    simp only [hws, if_true, List.takeWhile_cons, List.dropWhile_cons, hins,
      List.cons_append, hwi, Bool.false_eq_true, if_false, List.length_cons,
      Nat.succ_ne_zero, ite_false]
    rcases hpt with h | h <;> subst h <;>
      simp +decide [List.isPrefixOf, List.drop_succ_cons, List.takeWhile_cons, List.dropWhile_cons]

/-- The anchored attempt fails on git's `deletion` shape: the regex
demands the literal `insertion` after the digits and whitespace. -/
theorem parseStatAt_deletion_shape (d : List Char) (hd : ∀ c ∈ d, Char.isDigit c)
    (rest : List Char) :
    parseStatAt (d ++ ' ' :: 'd' :: rest) = none := by
  unfold parseStatAt
  rw [List.takeWhile_append_of_pos hd, List.dropWhile_append_of_pos hd]
  have hsp : Char.isDigit ' ' = false := by decide
  have hins : "insertion".data = ['i', 'n', 's', 'e', 'r', 't', 'i', 'o', 'n'] := rfl
  simp +decide [List.takeWhile_cons, hsp, List.dropWhile_cons, hins, List.isPrefixOf]

/-- The whole scan fails on the git shortstat shape, singular or plural. -/
theorem parseShortstat_gitshape_none (d1 d2 : List Char)
    (hd1 : ∀ c ∈ d1, Char.isDigit c) (hd2 : ∀ c ∈ d2, Char.isDigit c)
    (ptail1 ptail2 : List Char) (hp1 : ptail1 = [] ∨ ptail1 = ['s'])
    (hp2 : ptail2 = [] ∨ ptail2 = ['s']) :
    parseShortstatL (d1 ++ ' ' :: ("insertion".data ++ (ptail1 ++ '(' :: '+' :: ')' :: ',' :: ' ' ::
      (d2 ++ ' ' :: ("deletion".data ++ (ptail2 ++ ['(', '-', ')'])))))) = none := by
  apply parseShortstatL_append_digits d1 hd1
  · intro d' hd'
    exact parseStatAt_insertion_shape d' hd' ptail1 _ hp1
  · have htail : parseShortstatL (d2 ++ ' ' :: ("deletion".data ++ (ptail2 ++ ['(', '-', ')']))) = none := by
      apply parseShortstatL_append_digits d2 hd2
      · intro d' hd'
        exact parseStatAt_deletion_shape d' hd' _
      · rcases hp2 with h | h <;> subst h <;> decide
    have hmid : ∀ c ∈ (' ' :: ("insertion".data ++ (ptail1 ++ ['(', '+', ')', ',', ' ']))),
        Char.isDigit c = false := by
      rcases hp1 with h | h <;> subst h <;> decide
    have := parseShortstatL_append_nondigits _ hmid _ htail
    simpa [List.cons_append, List.append_assoc] using this

/-- C9: for every summary of git's standard shortstat shape
`"N insertion(s)(+), M deletion(s)(-)"` (N, M non-empty digit strings,
singular or plural), the parse expression fails to match — `\(+\)` wants
one or more `(` followed immediately by `)` — so additions and deletions
are both taken as 0 and the returned verb is `"Update"`; `Add`, `Remove`,
`Enhance` and `Simplify` are unreachable for summaries of that shape. -/
theorem getDetailedCommitMessage_git_shortstat (d1 d2 ptail1 ptail2 : List Char)
    (_hne1 : d1 ≠ []) (hd1 : ∀ c ∈ d1, Char.isDigit c)
    (_hne2 : d2 ≠ []) (hd2 : ∀ c ∈ d2, Char.isDigit c)
    (hp1 : ptail1 = [] ∨ ptail1 = "s".data) (hp2 : ptail2 = [] ∨ ptail2 = "s".data) :
    parseShortstatL (d1 ++ " insertion".data ++ ptail1 ++ "(+), ".data
        ++ d2 ++ " deletion".data ++ ptail2 ++ "(-)".data) = none ∧
    getDetailedCommitMessage ⟨d1 ++ " insertion".data ++ ptail1 ++ "(+), ".data
        ++ d2 ++ " deletion".data ++ ptail2 ++ "(-)".data⟩ = "Update" := by
  have hp1' : ptail1 = [] ∨ ptail1 = ['s'] := by simpa using hp1
  have hp2' : ptail2 = [] ∨ ptail2 = ['s'] := by simpa using hp2
  have h := parseShortstat_gitshape_none d1 d2 hd1 hd2 ptail1 ptail2 hp1' hp2'
  have eIns : " insertion".data = ' ' :: "insertion".data := rfl
  have ePlus : "(+), ".data = ['(', '+', ')', ',', ' '] := rfl
  have eDel : " deletion".data = ' ' :: "deletion".data := rfl
  have eMin : "(-)".data = ['(', '-', ')'] := rfl
  have hparse : parseShortstatL (d1 ++ " insertion".data ++ ptail1 ++ "(+), ".data
      ++ d2 ++ " deletion".data ++ ptail2 ++ "(-)".data) = none := by
    simp only [eIns, ePlus, eDel, eMin, List.append_assoc, List.cons_append] at h ⊢
    exact h
  refine ⟨hparse, ?_⟩
  unfold getDetailedCommitMessage
  rw [show (String.data ⟨d1 ++ " insertion".data ++ ptail1 ++ "(+), ".data
      ++ d2 ++ " deletion".data ++ ptail2 ++ "(-)".data⟩) = (d1 ++ " insertion".data
      ++ ptail1 ++ "(+), ".data ++ d2 ++ " deletion".data ++ ptail2 ++ "(-)".data) from rfl]
  rw [hparse]
  simp

/-- C9 (witness): the shape theorem applied to the concrete summary
`"12 insertions(+), 3 deletions(-)"`. -/
theorem getDetailedCommitMessage_git_shortstat_witness :
    getDetailedCommitMessage ⟨"12".data ++ " insertion".data ++ "s".data ++ "(+), ".data
        ++ "3".data ++ " deletion".data ++ "s".data ++ "(-)".data⟩ = "Update" :=
  (getDetailedCommitMessage_git_shortstat "12".data "3".data "s".data "s".data
    (by decide) (by decide) (by decide) (by decide) (Or.inr rfl) (Or.inr rfl)).2
